import Mathlib

/-!
Shallow embedding of the stage-progress reconciliation code of the
Data_Labeling repository.

Three parts of the source are modelled:

* the processing page (src/unnamed/part_002): `startProgressPolling` with its
  closure-local simulation `runSimulation`, the poll callback, and the helpers
  `updateProgress` / `updateStepStatus`;
* the React `ProcessingPipeline` component (src/unnamed/part_001): `startStep`
  and the effect cleanup, with the timers of the effect modelled explicitly;
* the module-level interval handles `progressInterval` / `simulationInterval`
  of part_002, modelled as a host-timer table to reason about timer leaks.

DOM effects are projected onto their observable content: each step element
carries at most one of the classes `active` / `completed` (they are always
removed before one is re-added), the progress bar carries a rational number,
and the hidden/visible state of the error and result sections is a flag.
Wall-clock times and progress values are rationals.
-/

namespace DataLabeling

/-- Status class carried by one pipeline step element. `updateStepStatus`
removes `active`, `completed` and `pending` and re-adds at most one of
`active` / `completed`, so an element carries at most one (`noCls` = none). -/
inductive StepCls where
  | noCls
  | active
  | completed
  deriving DecidableEq

/-- The fixed step id array of `startProgressPolling` (part_002 line 520). -/
def stepsArr : List String :=
  ["router", "extractor", "classifier", "labeler", "quality", "output"]

/-- The six step DOM elements with their status classes. -/
structure StepsCls where
  router : StepCls
  extractor : StepCls
  classifier : StepCls
  labeler : StepCls
  quality : StepCls
  output : StepCls
  deriving DecidableEq

/-- `updateStepStatus(stepName, status)` (part_002 lines 779-813) projected onto
the status classes: the element is found by name (an unknown name is a no-op),
its previous classes are removed and the new one is added when it is
`active` or `completed`. -/
def updateStepStatus (c : StepsCls) (name : String) (st : StepCls) : StepsCls :=
  if name = "router" then { c with router := st }
  else if name = "extractor" then { c with extractor := st }
  else if name = "classifier" then { c with classifier := st }
  else if name = "labeler" then { c with labeler := st }
  else if name = "quality" then { c with quality := st }
  else if name = "output" then { c with output := st }
  else c

/-- `updateStepStatus(steps[i], status)`: array lookup as in the source; an
out-of-range index reaches `querySelector` with `undefined` and is a no-op. -/
def updateStepIdx (c : StepsCls) (i : ℕ) (st : StepCls) : StepsCls :=
  match stepsArr.get? i with
  | some n => updateStepStatus c n st
  | none => c

/-- Closure variables of `startProgressPolling`'s simulation
(part_002 lines 521-523). -/
structure SimVars where
  currentStepIndex : ℕ
  stepStartTime : ℚ
  lastProgress : ℚ
  deriving DecidableEq

/-- Observable page and timer state owned by the polling / simulation code of
part_002.  `bar` is the progress bar value, `simTimer` / `pollTimer` record
whether `simulationInterval` / `progressInterval` are scheduled, `errorMsg` is
the visible error section content, `resultsShown` records a `displayResults`
call and `processingHidden` a `hideProcessing` call. -/
structure AppState where
  sim : SimVars
  cls : StepsCls
  bar : ℚ
  simTimer : Bool
  pollTimer : Bool
  errorMsg : Option String
  resultsShown : Bool
  processingHidden : Bool
  deriving DecidableEq

/-- Status field of a `/api/task` response. -/
inductive TaskStatus where
  | running
  | completed
  | failed
  deriving DecidableEq

/-- Remote `/api/task/taskId` response shape consumed by the poll callback
(part_002 lines 698-744). -/
structure TaskResp where
  status : TaskStatus
  progress : Option ℚ
  current_step : Option String
  completed_steps : Option (List String)
  error : Option String
  deriving DecidableEq

/-- Per-step time budget hardcoded in `runSimulation` (part_002 line 561). -/
def stepDuration : ℚ := 2000

/-- Progress / bar part of one `runSimulation` tick (part_002 lines 560-582):
computes the capped progress of the current step, forces an increase of 0.8
when the computed value does not exceed `lastProgress`, and writes the result
to the bar and to `lastProgress`. -/
def simProgressPart (now : ℚ) (s : AppState) : AppState :=
  let elapsed := now - s.sim.stepStartTime
  let baseProgress := (s.sim.currentStepIndex : ℚ) / 6 * 100
  let stepProgress := min (elapsed / stepDuration * (100 / 6)) (100 / 6)
  let progress1 := min (baseProgress + stepProgress) 95
  let progress :=
    if progress1 ≤ s.sim.lastProgress then s.sim.lastProgress + 4 / 5 else progress1
  { s with bar := progress, sim := { s.sim with lastProgress := progress } }

/-- Step-transition part of one `runSimulation` tick (part_002 lines 585-671):
when the elapsed time reaches the step duration and the cursor is not on the
last step, the current step is completed, the cursor advances, the timing and
`lastProgress` are reset and the next step is activated. -/
def simTransitionPart (now elapsed : ℚ) (s : AppState) : AppState :=
  if stepDuration ≤ elapsed ∧ s.sim.currentStepIndex < 5 then
    let idx := s.sim.currentStepIndex
    let c1 := updateStepIdx s.cls idx .completed
    let c2 := updateStepIdx c1 (idx + 1) .active
    { s with cls := c2,
             sim := { currentStepIndex := idx + 1, stepStartTime := now,
                      lastProgress := ((idx + 1 : ℕ) : ℚ) / 6 * 100 } }
  else s

/-- Completion part of one `runSimulation` tick (part_002 lines 674-682): when
the cursor is on the last step and the elapsed time computed at the start of
the tick reaches the step duration, the last step is completed and the bar is
written to 100. -/
def simFinalPart (elapsed : ℚ) (s : AppState) : AppState :=
  if 5 ≤ s.sim.currentStepIndex ∧ stepDuration ≤ elapsed then
    { s with cls := updateStepIdx s.cls s.sim.currentStepIndex .completed, bar := 100 }
  else s

/-- One full `runSimulation` tick at wall time `now` (part_002 lines 559-683).
The `isTransitioning` flag of the source is set and reset inside the same
synchronous callback and is therefore always false when tested. -/
def runSimulation (now : ℚ) (s : AppState) : AppState :=
  let elapsed := now - s.sim.stepStartTime
  simFinalPart elapsed (simTransitionPart now elapsed (simProgressPart now s))

/-- `updateProgress(task)` (part_002 lines 752-777): writes the task's progress
clamped to `[0,100]` to the bar (a missing value counts as 0), then marks the
task's `current_step` Active and its `completed_steps` Completed. -/
def updateProgress (task : TaskResp) (s : AppState) : AppState :=
  let p := min (max (task.progress.getD 0) 0) 100
  let s1 := { s with bar := p }
  let s2 :=
    match task.current_step with
    | some n => { s1 with cls := updateStepStatus s1.cls n .active }
    | none => s1
  match task.completed_steps with
  | some l => { s2 with cls := l.foldl (fun c n => updateStepStatus c n .completed) s2.cls }
  | none => s2

/-- Processing of one successfully parsed poll response (part_002 lines
698-744): a positive `progress` cancels the simulation interval, estimates the
active step, completes the ones before it and forwards the task to
`updateProgress`; a `completed` status cancels the simulation, completes all
steps, forces progress 100, cancels polling and displays the results; a
`failed` status cancels both intervals and shows the provided error (or the
default text). -/
def pollTick (task : TaskResp) (s : AppState) : AppState :=
  let s1 :=
    match task.progress with
    | some p =>
      if 0 < p then
        let sa := { s with simTimer := false }
        let progressPerStep : ℚ := 100 / 6
        let estimatedStep := min (Int.toNat ⌊p / progressPerStep⌋) 5
        let c1 := (List.range estimatedStep).foldl
          (fun c i => updateStepIdx c i .completed) sa.cls
        let c2 := if estimatedStep < 6 then updateStepIdx c1 estimatedStep .active else c1
        updateProgress { task with progress := some p } { sa with cls := c2 }
      else s
    | none => s
  match task.status with
  | .completed =>
    let s2 := { s1 with simTimer := false }
    let c := stepsArr.foldl (fun c n => updateStepStatus c n .completed) s2.cls
    let s3 := updateProgress { task with progress := some 100 } { s2 with cls := c }
    { s3 with pollTimer := false, resultsShown := true, processingHidden := true }
  | .failed =>
    let msg :=
      match task.error with
      | some e => if e = "" then "Processing failed" else e
      | none => "Processing failed"
    { s1 with simTimer := false, pollTimer := false,
              errorMsg := some msg, processingHidden := true }
  | .running => s1

/-- A producer callback dispatched by the event loop: a simulated tick at wall
time `now`, a resolved and parsed poll response, or a poll whose fetch rejected
or returned a non-ok response.  A cleared interval never fires again, so each
callback is guarded on its timer flag; the catch handler of the poll callback
only logs (part_002 lines 745-748). -/
inductive Event where
  | simTick (now : ℚ)
  | pollOk (task : TaskResp)
  | pollErr
  deriving DecidableEq

/-- Dispatch of one event against the page state. -/
def applyEvent (s : AppState) (e : Event) : AppState :=
  match e with
  | .simTick now => if s.simTimer then runSimulation now s else s
  | .pollOk task => if s.pollTimer then pollTick task s else s
  | .pollErr => s

/-- Dispatch of a sequence of events, in callback order. -/
def applyEvents (s : AppState) (es : List Event) : AppState :=
  es.foldl applyEvent s

/-- State installed by `startProgressPolling` called at wall time `t0` on a
freshly reset page (part_002 lines 507-691): old intervals cleared, closure
variables initialised, the first step ensured Active, the bar ensured at 3%,
one immediate `runSimulation()` call, then both intervals scheduled. -/
def initApp (t0 : ℚ) : AppState :=
  let s : AppState :=
    { sim := { currentStepIndex := 0, stepStartTime := t0, lastProgress := 0 }
      cls := { router := .active, extractor := .noCls, classifier := .noCls,
               labeler := .noCls, quality := .noCls, output := .noCls }
      bar := 3
      simTimer := true
      pollTimer := true
      errorMsg := none
      resultsShown := false
      processingHidden := false }
  runSimulation t0 s

/-- Number of step elements currently carrying the `active` class. -/
def countActive (c : StepsCls) : ℕ :=
  (if c.router = .active then 1 else 0) + (if c.extractor = .active then 1 else 0) +
  (if c.classifier = .active then 1 else 0) + (if c.labeler = .active then 1 else 0) +
  (if c.quality = .active then 1 else 0) + (if c.output = .active then 1 else 0)

/-- Step classes as the simulated track of part_002 alone produces them: every
step before the cursor Completed, the cursor Active (or Completed once the
final completion block has run, `done = true`), later steps untouched. -/
def simShapeAt (idx : ℕ) (done : Bool) (j : ℕ) : StepCls :=
  if j < idx then .completed
  else if j = idx then (if done then .completed else .active)
  else .noCls

/-- The full six-element class vector of a pure simulated run. -/
def simShape (idx : ℕ) (done : Bool) : StepsCls :=
  { router := simShapeAt idx done 0, extractor := simShapeAt idx done 1,
    classifier := simShapeAt idx done 2, labeler := simShapeAt idx done 3,
    quality := simShapeAt idx done 4, output := simShapeAt idx done 5 }

/-- Invariant of the simulated track of part_002: the cursor stays on a valid
step and the class vector is exactly the simulated shape. -/
def SimInv (s : AppState) : Prop :=
  s.sim.currentStepIndex ≤ 5 ∧ ∃ b, s.cls = simShape s.sim.currentStepIndex b

/-- Decidable form of a poll response carrying strictly positive progress. -/
def progressPosB (task : TaskResp) : Bool :=
  match task.progress with
  | some p => decide (0 < p)
  | none => false

/-- Class vector with every step element carrying `completed`. -/
def allCompletedCls : StepsCls :=
  { router := .completed, extractor := .completed, classifier := .completed,
    labeler := .completed, quality := .completed, output := .completed }

/- ====================================================================
   Embedding of the React ProcessingPipeline component (part_001).
   ==================================================================== -/

/-- Step display status of the React `ProcessingPipeline` (part_001). -/
inductive PStatus where
  | pending
  | active
  | completed
  deriving DecidableEq

/-- A scheduled timer callback of the `ProcessingPipeline` effect:
`progressT i cur` is the 50ms progress interval of step `i` whose closure
variable `currentProgress` holds `cur`; `stepT i` is the 1500ms timeout that
completes step `i`; `advanceT i` is the 200ms timeout that calls
`startStep(i)` (its handle is never stored); `completeT` is the 500ms timeout
that invokes `onComplete` (its handle is never stored either). -/
inductive TKind where
  | progressT (stepIndex : ℕ) (cur : ℚ)
  | stepT (stepIndex : ℕ)
  | advanceT (stepIndex : ℕ)
  | completeT
  deriving DecidableEq

/-- A pending timer of the effect, with its host handle. -/
structure TEntry where
  id : ℕ
  kind : TKind
  deriving DecidableEq

/-- State of one mounted `ProcessingPipeline` run: the React state fields, the
invocation count of `onComplete`, the pending timers, and the two handle
variables `progressTimer` / `stepTimer` of the effect (part_001 lines 75-76). -/
structure MState where
  stepStatuses : List PStatus
  currentStep : ℕ
  progress : ℚ
  completedFlag : Bool
  onCompleteCount : ℕ
  timers : List TEntry
  progressVar : Option ℕ
  stepVar : Option ℕ
  nextId : ℕ
  deriving DecidableEq

/-- Schedule a callback with a fresh host handle. -/
def schedule (k : TKind) (st : MState) : MState :=
  { st with timers := ⟨st.nextId, k⟩ :: st.timers, nextId := st.nextId + 1 }

/-- `startStep(stepIndex)` (part_001 lines 78-128).  Past the last step it sets
the completed status and progress 100 and schedules the `onComplete` timeout;
otherwise it activates the step, stores a fresh progress interval in
`progressTimer` and a fresh step timeout in `stepTimer`. -/
def startStep (i : ℕ) (st : MState) : MState :=
  if 6 ≤ i then
    schedule .completeT { st with completedFlag := true, progress := 100 }
  else
    let st1 := { st with stepStatuses := st.stepStatuses.set i .active, currentStep := i }
    let pid := st1.nextId
    let st2 := { schedule (.progressT i ((i : ℚ) / 6 * 100)) st1 with progressVar := some pid }
    let sid := st2.nextId
    { schedule (.stepT i) st2 with stepVar := some sid }

/-- Remove the first pending timer with the given handle, returning its kind. -/
def removeFirst (id : ℕ) : List TEntry → Option (TKind × List TEntry)
  | [] => none
  | e :: rest =>
    if e.id = id then some (e.kind, rest)
    else
      match removeFirst id rest with
      | some (k, l) => some (k, e :: l)
      | none => none

/-- Fire the pending timer with the given handle, if any: the progress interval
adds `5/9` per invocation and self-clears at its target (part_001 lines
106-113); the step timeout completes its step and schedules the untracked
200ms advance timeout (lines 116-127); the advance timeout calls `startStep`;
the completion timeout invokes `onComplete` (line 85). -/
def fire (id : ℕ) (st : MState) : MState :=
  match removeFirst id st.timers with
  | none => st
  | some (k, rest) =>
    match k with
    | .progressT i cur =>
      let target := ((i : ℚ) + 1) / 6 * 100
      let cur1 := cur + 5 / 9
      if target ≤ cur1 then { st with progress := target, timers := rest }
      else { st with progress := cur1, timers := ⟨id, .progressT i cur1⟩ :: rest }
    | .stepT i =>
      schedule (.advanceT (i + 1))
        { st with stepStatuses := st.stepStatuses.set i .completed, timers := rest }
    | .advanceT i => startStep i { st with timers := rest }
    | .completeT => { st with onCompleteCount := st.onCompleteCount + 1, timers := rest }

/-- Cancel the pending timer with the given handle, if any. -/
def cancelId (id : ℕ) (l : List TEntry) : List TEntry :=
  match removeFirst id l with
  | some (_, rest) => rest
  | none => l

/-- The effect cleanup (part_001 lines 133-137): clears the interval and the
timeout whose handles are stored in `progressTimer` and `stepTimer`, and
nothing else. -/
def cleanup (st : MState) : MState :=
  let t1 :=
    match st.progressVar with
    | some id => cancelId id st.timers
    | none => st.timers
  let t2 :=
    match st.stepVar with
    | some id => cancelId id t1
    | none => t1
  { st with timers := t2 }

/-- Freshly mounted component state: the effect body runs `startStep(0)`
(part_001 line 131).  Host timer handles start at 1. -/
def mounted : MState :=
  startStep 0
    { stepStatuses := List.replicate 6 .pending, currentStep := 0, progress := 0,
      completedFlag := false, onCompleteCount := 0, timers := [],
      progressVar := none, stepVar := none, nextId := 1 }

/-- One scheduler step against a mounted component: fire a pending timer, or
run the effect cleanup (unmount / dependency change). -/
inductive MOp where
  | fireOp (id : ℕ)
  | cleanupOp
  deriving DecidableEq

/-- Apply one scheduler step. -/
def applyMOp (st : MState) : MOp → MState
  | .fireOp id => fire id st
  | .cleanupOp => cleanup st

/-- Apply a sequence of scheduler steps. -/
def applyMOps (st : MState) (ops : List MOp) : MState :=
  ops.foldl applyMOp st

/-- Weight of a timer kind in the advancing chain of the pipeline: the step
timeout, the advance timeout and the completion timeout each carry the single
baton; progress intervals carry none. -/
def kindWeight : TKind → ℕ
  | .progressT _ _ => 0
  | .stepT _ => 1
  | .advanceT _ => 1
  | .completeT => 1

/-- Weight counting only pending completion timeouts. -/
def compWeight : TKind → ℕ
  | .completeT => 1
  | _ => 0

/-- Total weight of a pending-timer list under a kind weight. -/
def weightSum (w : TKind → ℕ) : List TEntry → ℕ
  | [] => 0
  | e :: l => w e.kind + weightSum w l

/-- Pending chain weight plus completed invocations: this quantity never
grows, which bounds `onComplete` calls. -/
def chainComp (st : MState) : ℕ :=
  weightSum kindWeight st.timers + st.onCompleteCount

/-- Pending completion timeouts plus completed invocations. -/
def compM (st : MState) : ℕ :=
  weightSum compWeight st.timers + st.onCompleteCount

/-- Invariant of a mounted `ProcessingPipeline` run. -/
def MInv (st : MState) : Prop :=
  chainComp st ≤ 1 ∧ (1 ≤ compM st → st.completedFlag = true)

/- ====================================================================
   Host model of the module-level interval handles of part_002.
   ==================================================================== -/

/-- Tag of a host interval of part_002: the 50ms simulation interval or the
2000ms polling interval. -/
inductive TTag where
  | sim
  | poll
  deriving DecidableEq

/-- A scheduled host interval. -/
structure HTimer where
  id : ℕ
  tag : TTag
  deriving DecidableEq

/-- Host timer table together with the module-level handle variables
`progressInterval` and `simulationInterval` (part_002 lines 9-10). -/
structure Host where
  live : List HTimer
  progressIntervalVar : Option ℕ
  simulationIntervalVar : Option ℕ
  nextId : ℕ
  deriving DecidableEq

/-- `clearInterval(id)`: the interval with that handle stops firing. -/
def clearTimer (id : ℕ) (l : List HTimer) : List HTimer :=
  l.filter (fun t => t.id != id)

/-- Timer bookkeeping of one `startProgressPolling` call (part_002 lines
510-517, 689 and 691): clear both module-level handles when set and null them,
then schedule the simulation interval and the polling interval, storing the
fresh handles. -/
def startPollingTimers (h : Host) : Host :=
  let h1 :=
    match h.progressIntervalVar with
    | some id => { h with live := clearTimer id h.live, progressIntervalVar := none }
    | none => h
  let h2 :=
    match h1.simulationIntervalVar with
    | some id => { h1 with live := clearTimer id h1.live, simulationIntervalVar := none }
    | none => h1
  let h3 := { h2 with live := ⟨h2.nextId, .sim⟩ :: h2.live,
                      simulationIntervalVar := some h2.nextId, nextId := h2.nextId + 1 }
  { h3 with live := ⟨h3.nextId, .poll⟩ :: h3.live,
            progressIntervalVar := some h3.nextId, nextId := h3.nextId + 1 }

/-- The `clearInterval(simulationInterval); simulationInterval = null` pattern
used on handoff and on terminal responses (part_002 lines 702-705, 723-726 and
736-739). -/
def clearSimTimer (h : Host) : Host :=
  match h.simulationIntervalVar with
  | some id => { h with live := clearTimer id h.live, simulationIntervalVar := none }
  | none => h

/-- The `clearInterval(progressInterval); progressInterval = null` pattern of
the terminal branches (part_002 lines 731-732 and 740-741). -/
def clearPollTimer (h : Host) : Host :=
  match h.progressIntervalVar with
  | some id => { h with live := clearTimer id h.live, progressIntervalVar := none }
  | none => h

/-- The operations of part_002 that touch the two module-level handles. -/
inductive HostOp where
  | start
  | clearSim
  | clearPoll
  deriving DecidableEq

/-- Apply one host operation. -/
def applyHostOp (h : Host) : HostOp → Host
  | .start => startPollingTimers h
  | .clearSim => clearSimTimer h
  | .clearPoll => clearPollTimer h

/-- Apply a sequence of host operations. -/
def applyHostOps (h : Host) (ops : List HostOp) : Host :=
  ops.foldl applyHostOp h

/-- Page-load host state: both handles null, no interval scheduled. -/
def initHost : Host :=
  { live := [], progressIntervalVar := none, simulationIntervalVar := none, nextId := 1 }

/-- The live simulation intervals. -/
def simTimers (h : Host) : List HTimer :=
  h.live.filter (fun t => t.tag == .sim)

/-- The live polling intervals. -/
def pollTimers (h : Host) : List HTimer :=
  h.live.filter (fun t => t.tag == .poll)

/-- Invariant of the host table: handles are fresh-bounded, and each of the two
tags has at most one live interval, the one recorded in its handle variable. -/
def HostInv (h : Host) : Prop :=
  (∀ t ∈ h.live, t.id < h.nextId) ∧
    (match h.simulationIntervalVar with
     | none => simTimers h = []
     | some i => i < h.nextId ∧ (simTimers h = [] ∨ simTimers h = [⟨i, .sim⟩])) ∧
    (match h.progressIntervalVar with
     | none => pollTimers h = []
     | some i => i < h.nextId ∧ (pollTimers h = [] ∨ pollTimers h = [⟨i, .poll⟩]))

/- ====================================================================
   Helper lemmas.
   ==================================================================== -/

/-- The bar value written by `updateProgress` is the task's progress clamped
to `[0,100]`, whatever the step bookkeeping does afterwards. -/
theorem updateProgress_bar (task : TaskResp) (s : AppState) :
    (updateProgress task s).bar = min (max (task.progress.getD 0) 0) 100 := by
  unfold updateProgress
  cases task.current_step <;> cases task.completed_steps <;> rfl

/-- `pollTick` never restarts the simulation interval. -/
theorem pollTick_simTimer_mono (task : TaskResp) (s : AppState)
    (h : s.simTimer = false) : (pollTick task s).simTimer = false := by
  unfold pollTick
  cases task.status <;> cases task.progress <;>
    simp only [updateProgress] <;>
    first
      | (split <;> cases task.current_step <;> cases task.completed_steps <;> simp [h])
      | (cases task.current_step <;> cases task.completed_steps <;> simp [h])

/-- A poll response with strictly positive progress leaves the simulation
interval cancelled, whatever its status. -/
theorem pollTick_pos_simTimer (task : TaskResp) (s : AppState) (p : ℚ)
    (hp : task.progress = some p) (h0 : 0 < p) :
    (pollTick task s).simTimer = false := by
  unfold pollTick
  rw [hp]
  cases task.status <;>
    simp only [updateProgress, h0, if_pos] <;>
    cases task.current_step <;> cases task.completed_steps <;> simp

/-- No event re-enables a cancelled simulation interval. -/
theorem applyEvent_simTimer_mono (s : AppState) (e : Event)
    (h : s.simTimer = false) : (applyEvent s e).simTimer = false := by
  cases e with
  | simTick now => simp [applyEvent, h]
  | pollOk task =>
    simp only [applyEvent]
    split
    · exact pollTick_simTimer_mono task s h
    · exact h
  | pollErr => exact h

/-- No event sequence re-enables a cancelled simulation interval. -/
theorem applyEvents_simTimer_mono (es : List Event) (s : AppState)
    (h : s.simTimer = false) : (applyEvents s es).simTimer = false := by
  induction es generalizing s with
  | nil => exact h
  | cons e es ih => exact ih _ (applyEvent_simTimer_mono s e h)

/-- With both intervals cancelled, every event is a no-op. -/
theorem applyEvent_frozen (s : AppState) (h1 : s.simTimer = false)
    (h2 : s.pollTimer = false) (e : Event) : applyEvent s e = s := by
  cases e <;> simp [applyEvent, h1, h2]

/-- A simulated tick never touches the polling interval. -/
theorem runSimulation_pollTimer (now : ℚ) (s : AppState) :
    (runSimulation now s).pollTimer = s.pollTimer := by
  unfold runSimulation simFinalPart simTransitionPart simProgressPart
  dsimp only
  split_ifs <;> rfl

/-- A simulated tick never touches the simulation interval flag. -/
theorem runSimulation_simTimer (now : ℚ) (s : AppState) :
    (runSimulation now s).simTimer = s.simTimer := by
  unfold runSimulation simFinalPart simTransitionPart simProgressPart
  dsimp only
  split_ifs <;> rfl

/-- A simulated tick never touches the error section. -/
theorem runSimulation_errorMsg (now : ℚ) (s : AppState) :
    (runSimulation now s).errorMsg = s.errorMsg := by
  unfold runSimulation simFinalPart simTransitionPart simProgressPart
  dsimp only
  split_ifs <;> rfl

/-- A simulated tick never displays results. -/
theorem runSimulation_resultsShown (now : ℚ) (s : AppState) :
    (runSimulation now s).resultsShown = s.resultsShown := by
  unfold runSimulation simFinalPart simTransitionPart simProgressPart
  dsimp only
  split_ifs <;> rfl

/-- The polling interval is scheduled when `startProgressPolling` returns. -/
theorem initApp_pollTimer (t0 : ℚ) : (initApp t0).pollTimer = true := by
  unfold initApp
  rw [runSimulation_pollTimer]

/-- A simulated tick on a state whose simulation interval is cancelled is a
no-op. -/
theorem simTick_noop (s : AppState) (h : s.simTimer = false) (now : ℚ) :
    applyEvent s (.simTick now) = s := by
  simp [applyEvent, h]

/- ====================================================================
   Claim theorems.
   ==================================================================== -/

/-- Claim C1, counterexample: the displayed overall progress is not
non-decreasing.  From the state installed by `startProgressPolling`, a first
poll response with progress 5 puts the bar at 5; a second poll response with
progress 3 lowers the bar to 3, because `updateProgress` writes the incoming
value clamped to `[0,100]` without comparing it to the existing value — there
is no `max(existing, sample)` anywhere in part_002 lines 752-777. -/
theorem c1_counterexample :
    let s1 := applyEvent (initApp 0) (.pollOk ⟨.running, some 5, none, none, none⟩)
    let s2 := applyEvent s1 (.pollOk ⟨.running, some 3, none, none, none⟩)
    s2.bar < s1.bar := by
  simp only [applyEvent, applyEvents, List.foldl, initApp, runSimulation,
    simProgressPart, simTransitionPart, simFinalPart, pollTick, updateProgress,
    updateStepIdx, updateStepStatus, stepsArr, stepDuration, min_def, max_def,
    List.range, List.range.loop, Option.getD]
  norm_num

/-- Claim C1, amended: applying a remote sample writes the sample's progress
clamped to `[0,100]` regardless of the progress already displayed (so a
smaller remote sample lowers the bar), while the simulated per-tick write is
always strictly above the previous `lastProgress` value. -/
theorem c1_amended_clamp (task : TaskResp) (s : AppState) (p : ℚ) (now : ℚ)
    (hp : task.progress = some p) :
    (updateProgress task s).bar = min (max p 0) 100 ∧
    s.sim.lastProgress < (simProgressPart now s).bar := by
  constructor
  · rw [updateProgress_bar, hp]
    rfl
  · unfold simProgressPart
    dsimp only
    split
    · linarith
    · linarith [lt_of_not_le (by assumption : ¬ _ ≤ s.sim.lastProgress)]

/-- Witness for C1's amended theorem at a concrete input: a sample of 150 is
written as 100, and a simulated tick from the initial state raises the bar
above the stored `lastProgress`. -/
theorem c1_amended_clamp_witness :
    (updateProgress ⟨.running, some 150, none, none, none⟩ (initApp 0)).bar =
        min (max 150 0) 100 ∧
      (initApp 0).sim.lastProgress < (simProgressPart 50 (initApp 0)).bar :=
  c1_amended_clamp ⟨.running, some 150, none, none, none⟩ (initApp 0) 150 50 rfl

/-- Evaluation of the pure simulated five-tick trace, one tick at a time. -/
theorem simTrace_eval :
    applyEvents (initApp 0)
        [.simTick 2000, .simTick 4000, .simTick 6000, .simTick 8000, .simTick 10000] =
      { sim := { currentStepIndex := 5, stepStartTime := 10000, lastProgress := 250 / 3 }
        cls := allCompletedCls
        bar := 100
        simTimer := true
        pollTimer := true
        errorMsg := none
        resultsShown := false
        processingHidden := false } := by
  have h0 : initApp 0 =
      { sim := { currentStepIndex := 0, stepStartTime := 0, lastProgress := 4 / 5 }
        cls := { router := .active, extractor := .noCls, classifier := .noCls,
                 labeler := .noCls, quality := .noCls, output := .noCls }
        bar := 4 / 5
        simTimer := true
        pollTimer := true
        errorMsg := none
        resultsShown := false
        processingHidden := false } := by
    simp [initApp, runSimulation, simProgressPart, simTransitionPart, simFinalPart,
      updateStepIdx, updateStepStatus, stepsArr, stepDuration, min_def, max_def]
    norm_num
  have h1 : runSimulation 2000
      { sim := { currentStepIndex := 0, stepStartTime := 0, lastProgress := 4 / 5 }
        cls := { router := .active, extractor := .noCls, classifier := .noCls,
                 labeler := .noCls, quality := .noCls, output := .noCls }
        bar := 4 / 5
        simTimer := true
        pollTimer := true
        errorMsg := none
        resultsShown := false
        processingHidden := false } =
      { sim := { currentStepIndex := 1, stepStartTime := 2000, lastProgress := 50 / 3 }
        cls := { router := .completed, extractor := .active, classifier := .noCls,
                 labeler := .noCls, quality := .noCls, output := .noCls }
        bar := 50 / 3
        simTimer := true
        pollTimer := true
        errorMsg := none
        resultsShown := false
        processingHidden := false } := by
    simp [runSimulation, simProgressPart, simTransitionPart, simFinalPart,
      updateStepIdx, updateStepStatus, stepsArr, stepDuration, min_def, max_def]
    norm_num
  have h2 : runSimulation 4000
      { sim := { currentStepIndex := 1, stepStartTime := 2000, lastProgress := 50 / 3 }
        cls := { router := .completed, extractor := .active, classifier := .noCls,
                 labeler := .noCls, quality := .noCls, output := .noCls }
        bar := 50 / 3
        simTimer := true
        pollTimer := true
        errorMsg := none
        resultsShown := false
        processingHidden := false } =
      { sim := { currentStepIndex := 2, stepStartTime := 4000, lastProgress := 100 / 3 }
        cls := { router := .completed, extractor := .completed, classifier := .active,
                 labeler := .noCls, quality := .noCls, output := .noCls }
        bar := 100 / 3
        simTimer := true
        pollTimer := true
        errorMsg := none
        resultsShown := false
        processingHidden := false } := by
    simp [runSimulation, simProgressPart, simTransitionPart, simFinalPart,
      updateStepIdx, updateStepStatus, stepsArr, stepDuration, min_def, max_def]
    norm_num
  have h3 : runSimulation 6000
      { sim := { currentStepIndex := 2, stepStartTime := 4000, lastProgress := 100 / 3 }
        cls := { router := .completed, extractor := .completed, classifier := .active,
                 labeler := .noCls, quality := .noCls, output := .noCls }
        bar := 100 / 3
        simTimer := true
        pollTimer := true
        errorMsg := none
        resultsShown := false
        processingHidden := false } =
      { sim := { currentStepIndex := 3, stepStartTime := 6000, lastProgress := 50 }
        cls := { router := .completed, extractor := .completed, classifier := .completed,
                 labeler := .active, quality := .noCls, output := .noCls }
        bar := 50
        simTimer := true
        pollTimer := true
        errorMsg := none
        resultsShown := false
        processingHidden := false } := by
    simp [runSimulation, simProgressPart, simTransitionPart, simFinalPart,
      updateStepIdx, updateStepStatus, stepsArr, stepDuration, min_def, max_def]
    norm_num
  have h4 : runSimulation 8000
      { sim := { currentStepIndex := 3, stepStartTime := 6000, lastProgress := 50 }
        cls := { router := .completed, extractor := .completed, classifier := .completed,
                 labeler := .active, quality := .noCls, output := .noCls }
        bar := 50
        simTimer := true
        pollTimer := true
        errorMsg := none
        resultsShown := false
        processingHidden := false } =
      { sim := { currentStepIndex := 4, stepStartTime := 8000, lastProgress := 200 / 3 }
        cls := { router := .completed, extractor := .completed, classifier := .completed,
                 labeler := .completed, quality := .active, output := .noCls }
        bar := 200 / 3
        simTimer := true
        pollTimer := true
        errorMsg := none
        resultsShown := false
        processingHidden := false } := by
    simp [runSimulation, simProgressPart, simTransitionPart, simFinalPart,
      updateStepIdx, updateStepStatus, stepsArr, stepDuration, min_def, max_def]
    norm_num
  have h5 : runSimulation 10000
      { sim := { currentStepIndex := 4, stepStartTime := 8000, lastProgress := 200 / 3 }
        cls := { router := .completed, extractor := .completed, classifier := .completed,
                 labeler := .completed, quality := .active, output := .noCls }
        bar := 200 / 3
        simTimer := true
        pollTimer := true
        errorMsg := none
        resultsShown := false
        processingHidden := false } =
      { sim := { currentStepIndex := 5, stepStartTime := 10000, lastProgress := 250 / 3 }
        cls := allCompletedCls
        bar := 100
        simTimer := true
        pollTimer := true
        errorMsg := none
        resultsShown := false
        processingHidden := false } := by
    simp [runSimulation, simProgressPart, simTransitionPart, simFinalPart,
      updateStepIdx, updateStepStatus, stepsArr, stepDuration, min_def, max_def,
      allCompletedCls]
    norm_num
    decide
  simp only [applyEvents, List.foldl, applyEvent, h0, h1, h2, h3, h4, h5, ite_true]

/-- Claim C2, counterexample: in a pure simulated run (no poll response ever
applied) with the source's hardcoded 2000ms step duration, ticks at
2000, 4000, 6000, 8000 and 10000ms drive the bar to exactly 100 — not clamped
at 95 — and mark the last step `completed`, not `active`, while the poll side
is still running (no results, no error).  The tick at 10000 both advances the
cursor onto the last step and runs the completion block of part_002 lines
674-682 with the stale `elapsed` value. -/
theorem c2_counterexample :
    let s := applyEvents (initApp 0)
      [.simTick 2000, .simTick 4000, .simTick 6000, .simTick 8000, .simTick 10000]
    s.bar = 100 ∧ ¬ s.bar ≤ 95 ∧ s.cls.output = .completed ∧
      ¬ s.cls.output = .active ∧ s.resultsShown = false ∧ s.errorMsg = none ∧
      s.pollTimer = true := by
  simp only [simTrace_eval, allCompletedCls]
  norm_num
  decide

/-- Claim C2, amended: once the simulation cursor is on the last step, any
tick whose elapsed time reaches the step duration marks the last step
Completed and writes the bar to 100 (the 95 cap applies only to the per-step
formula of earlier lines), while the run outcome stays whatever it was:
results, error state and the polling interval are untouched by the tick. -/
theorem c2_amended_final (now : ℚ) (s : AppState)
    (h1 : s.sim.currentStepIndex = 5)
    (h2 : stepDuration ≤ now - s.sim.stepStartTime) :
    (runSimulation now s).bar = 100 ∧
    (runSimulation now s).cls.output = .completed ∧
    (runSimulation now s).resultsShown = s.resultsShown ∧
    (runSimulation now s).errorMsg = s.errorMsg ∧
    (runSimulation now s).pollTimer = s.pollTimer := by
  have hidx : (simProgressPart now s).sim.currentStepIndex = 5 := by
    simp only [simProgressPart]
    exact h1
  have hnot : ¬ (stepDuration ≤ now - s.sim.stepStartTime ∧
      (simProgressPart now s).sim.currentStepIndex < 5) := by
    rintro ⟨-, hlt⟩
    rw [hidx] at hlt
    omega
  unfold runSimulation
  dsimp only
  unfold simTransitionPart
  rw [if_neg hnot]
  unfold simFinalPart
  rw [if_pos ⟨by rw [hidx], h2⟩]
  refine ⟨rfl, ?_, rfl, rfl, rfl⟩
  rw [hidx]
  simp [updateStepIdx, stepsArr, updateStepStatus]

/-- Witness for C2's amended theorem at the concrete state reached by the
counterexample trace, with a further tick at 12000ms. -/
theorem c2_amended_final_witness :
    (runSimulation 12000 (applyEvents (initApp 0)
      [.simTick 2000, .simTick 4000, .simTick 6000, .simTick 8000,
        .simTick 10000])).bar = 100 := by
  rw [simTrace_eval]
  exact (c2_amended_final 12000 _ rfl (by norm_num [stepDuration])).1

/-- Claim C4, confirmed: once a poll response with strictly positive progress
has been applied, the simulation interval is cancelled, stays cancelled under
any further event sequence, and a later simulated tick produces no state
change at all. -/
theorem c4_handoff (s : AppState) (task : TaskResp) (p : ℚ)
    (evs : List Event) (now : ℚ) (hpoll : s.pollTimer = true)
    (hp : task.progress = some p) (h0 : 0 < p) :
    (applyEvent s (.pollOk task)).simTimer = false ∧
    (applyEvents (applyEvent s (.pollOk task)) evs).simTimer = false ∧
    applyEvent (applyEvents (applyEvent s (.pollOk task)) evs) (.simTick now) =
      applyEvents (applyEvent s (.pollOk task)) evs := by
  have hbase : (applyEvent s (.pollOk task)).simTimer = false := by
    simp only [applyEvent, hpoll, if_true]
    exact pollTick_pos_simTimer task s p hp h0
  have hall := applyEvents_simTimer_mono evs _ hbase
  exact ⟨hbase, hall, simTick_noop _ hall now⟩

/-- Witness for C4 at a concrete input: handoff on a progress-5 response from
the initial state, empty continuation, delayed tick at 50ms. -/
theorem c4_handoff_witness :
    applyEvent (applyEvents (applyEvent (initApp 0)
        (.pollOk ⟨.running, some 5, none, none, none⟩)) []) (.simTick 50) =
      applyEvents (applyEvent (initApp 0)
        (.pollOk ⟨.running, some 5, none, none, none⟩)) [] :=
  (c4_handoff (initApp 0) ⟨.running, some 5, none, none, none⟩ 5 [] 50
    (initApp_pollTimer 0) rfl (by norm_num)).2.2

/-- Marking an already fully completed class vector completes nothing new. -/
theorem updateStepStatus_allCompleted (n : String) :
    updateStepStatus allCompletedCls n .completed = allCompletedCls := by
  unfold updateStepStatus allCompletedCls
  split_ifs <;> rfl

/-- Folding completion marks over a fully completed vector is the identity. -/
theorem foldl_completed_allCompleted (l : List String) :
    l.foldl (fun c n => updateStepStatus c n .completed) allCompletedCls =
      allCompletedCls := by
  induction l with
  | nil => rfl
  | cons a l ih => rw [List.foldl_cons, updateStepStatus_allCompleted, ih]

/-- The `steps.forEach(step => updateStepStatus(step, 'completed'))` loop of the
completed branch yields the fully completed vector from any start. -/
theorem stepsArr_foldl_completed (c : StepsCls) :
    stepsArr.foldl (fun c n => updateStepStatus c n .completed) c =
      allCompletedCls := by
  simp [stepsArr, updateStepStatus, allCompletedCls]

/-- Claim C5, counterexample: a `completed` response that carries a
`current_step` does not leave every stage Completed — the final
`updateProgress({...task, progress: 100})` call re-marks that stage Active
after the `steps.forEach(completed)` loop.  Here the very first poll returns
completed with `current_step: quality` and the `quality` stage ends Active. -/
theorem c5_counterexample :
    let s1 := applyEvent (initApp 0)
      (.pollOk ⟨.completed, none, some "quality", none, none⟩)
    s1.cls.quality = .active ∧ ¬ s1.cls.quality = .completed ∧ s1.bar = 100 ∧
      s1.resultsShown = true := by
  simp [applyEvent, applyEvents, List.foldl, initApp, runSimulation,
    simProgressPart, simTransitionPart, simFinalPart, pollTick, updateProgress,
    updateStepIdx, updateStepStatus, stepsArr, stepDuration, min_def, max_def,
    List.range, List.range.loop, Option.getD]
  norm_num
  decide

/-- Claim C5, amended: when the remote source reports `completed`, progress is
forced to 100, both intervals are cancelled, polling stops, results are shown
and — provided the completion response carries no `current_step` — every stage
is marked Completed; this holds already on the very first poll. -/
theorem c5_amended_terminal (s : AppState) (task : TaskResp)
    (hpoll : s.pollTimer = true) (hst : task.status = .completed)
    (hcs : task.current_step = none) :
    (applyEvent s (.pollOk task)).bar = 100 ∧
    (applyEvent s (.pollOk task)).cls = allCompletedCls ∧
    (applyEvent s (.pollOk task)).simTimer = false ∧
    (applyEvent s (.pollOk task)).pollTimer = false ∧
    (applyEvent s (.pollOk task)).resultsShown = true ∧
    (applyEvent s (.pollOk task)).processingHidden = true := by
  obtain ⟨st, pr, cs, cps, er⟩ := task
  cases hst
  cases hcs
  have hite : applyEvent s (.pollOk ⟨.completed, pr, none, cps, er⟩) =
      pollTick ⟨.completed, pr, none, cps, er⟩ s := by
    simp [applyEvent, hpoll]
  rw [hite]
  rcases pr with _ | p
  · rcases cps with _ | l <;>
      simp [pollTick, updateProgress, stepsArr_foldl_completed,
        foldl_completed_allCompleted]
  · by_cases h0 : 0 < p <;> rcases cps with _ | l <;>
      simp [pollTick, updateProgress, stepsArr_foldl_completed,
        foldl_completed_allCompleted, h0]

/-- Witness for C5's amended theorem: completion on the very first poll of a
fresh run, with no `current_step` in the response. -/
theorem c5_amended_terminal_witness :
    (applyEvent (initApp 0) (.pollOk ⟨.completed, none, none, none, none⟩)).cls =
        allCompletedCls ∧
      (applyEvent (initApp 0) (.pollOk ⟨.completed, none, none, none, none⟩)).bar =
        100 :=
  ⟨(c5_amended_terminal (initApp 0) ⟨.completed, none, none, none, none⟩
      (initApp_pollTimer 0) rfl rfl).2.1,
    (c5_amended_terminal (initApp 0) ⟨.completed, none, none, none, none⟩
      (initApp_pollTimer 0) rfl rfl).1⟩

/-- Claim C6, counterexample: a `failed` response that also carries positive
progress does not leave the stage states as last known — the progress block of
the poll callback runs first and marks estimated stages Completed.  Here the
first poll returns failed with progress 90 and the `classifier` stage jumps
from untouched to Completed in the same poll. -/
theorem c6_counterexample :
    let s0 := initApp 0
    let s1 := applyEvent s0 (.pollOk ⟨.failed, some 90, none, none, some "E1"⟩)
    s1.cls.classifier = .completed ∧ s0.cls.classifier = .noCls ∧
      s1.errorMsg = some "E1" ∧ s1.resultsShown = false := by
  simp [applyEvent, applyEvents, List.foldl, initApp, runSimulation,
    simProgressPart, simTransitionPart, simFinalPart, pollTick, updateProgress,
    updateStepIdx, updateStepStatus, stepsArr, stepDuration, min_def, max_def,
    List.range, List.range.loop, Option.getD,
    (by norm_num : (⌊(90:ℚ) / (100 / 6)⌋ : ℤ) = 5), show Int.toNat 5 = 5 from rfl]
  norm_num

/-- Claim C6, amended: when the remote source reports `failed`, both intervals
are cancelled, the provided error message is surfaced, results are never shown
and — provided the failed response does not itself carry positive progress —
the stage states and the bar are untouched; afterwards the run is frozen:
every further event is a no-op, so the error is surfaced exactly once and the
completion path can never fire. -/
theorem c6_amended_failed (s : AppState) (task : TaskResp) (e : String)
    (hpoll : s.pollTimer = true) (hst : task.status = .failed)
    (hnp : progressPosB task = false) (he : task.error = some e)
    (hne : ¬ e = "") :
    (applyEvent s (.pollOk task)).cls = s.cls ∧
    (applyEvent s (.pollOk task)).bar = s.bar ∧
    (applyEvent s (.pollOk task)).errorMsg = some e ∧
    (applyEvent s (.pollOk task)).simTimer = false ∧
    (applyEvent s (.pollOk task)).pollTimer = false ∧
    (applyEvent s (.pollOk task)).resultsShown = s.resultsShown ∧
    ∀ ev, applyEvent (applyEvent s (.pollOk task)) ev = applyEvent s (.pollOk task) := by
  obtain ⟨st, pr, cs, cps, er⟩ := task
  cases hst
  cases he
  have hite : applyEvent s (.pollOk ⟨.failed, pr, cs, cps, some e⟩) =
      pollTick ⟨.failed, pr, cs, cps, some e⟩ s := by
    simp [applyEvent, hpoll]
  rw [hite]
  have hres : pollTick ⟨.failed, pr, cs, cps, some e⟩ s =
      { s with simTimer := false, pollTimer := false,
               errorMsg := some e, processingHidden := true } := by
    rcases pr with _ | p
    · simp [pollTick, hne]
    · have h0 : ¬ 0 < p := by
        simp [progressPosB] at hnp
        exact not_lt.mpr hnp
      simp [pollTick, h0, hne]
  rw [hres]
  refine ⟨rfl, rfl, rfl, rfl, rfl, rfl, ?_⟩
  intro ev
  exact applyEvent_frozen _ rfl rfl ev

/-- Witness for C6's amended theorem: a progress-free failed response with
error E1 on a fresh run, followed by one further (ignored) poll failure. -/
theorem c6_amended_failed_witness :
    (applyEvent (initApp 0)
        (.pollOk ⟨.failed, none, none, none, some "E1"⟩)).errorMsg = some "E1" ∧
      applyEvent (applyEvent (initApp 0)
          (.pollOk ⟨.failed, none, none, none, some "E1"⟩)) Event.pollErr =
        applyEvent (initApp 0) (.pollOk ⟨.failed, none, none, none, some "E1"⟩) :=
  ⟨(c6_amended_failed (initApp 0) ⟨.failed, none, none, none, some "E1"⟩ "E1"
      (initApp_pollTimer 0) rfl rfl rfl (by decide)).2.2.1,
    (c6_amended_failed (initApp 0) ⟨.failed, none, none, none, some "E1"⟩ "E1"
      (initApp_pollTimer 0) rfl rfl rfl (by decide)).2.2.2.2.2.2 Event.pollErr⟩

/-- Claim C7, confirmed: a poll whose fetch rejects or returns a non-ok
response changes nothing at all — the run state, the error section, the bar
and the still-scheduled polling interval are untouched, so the next poll
happens at the normal cadence. -/
theorem c7_transient_poll (s : AppState) :
    applyEvent s .pollErr = s ∧ (applyEvent s .pollErr).pollTimer = s.pollTimer ∧
      (applyEvent s .pollErr).errorMsg = s.errorMsg ∧
      (applyEvent s .pollErr).bar = s.bar :=
  ⟨rfl, rfl, rfl, rfl⟩

/-- Claim C8, counterexample: two stages Active at once.  After the initial
state (router Active), one poll response with progress 20 and
`current_step: output` marks the estimated step `extractor` Active and then
`output` Active via `updateProgress`, without deactivating `extractor` —
`countActive` is 2. -/
theorem c8_counterexample :
    let s1 := applyEvent (initApp 0)
      (.pollOk ⟨.running, some 20, some "output", none, none⟩)
    countActive s1.cls = 2 ∧ s1.cls.extractor = .active ∧
      s1.cls.output = .active := by
  simp [applyEvent, applyEvents, List.foldl, initApp, runSimulation,
    simProgressPart, simTransitionPart, simFinalPart, pollTick, updateProgress,
    updateStepIdx, updateStepStatus, stepsArr, stepDuration, min_def, max_def,
    List.range, List.range.loop, Option.getD, countActive,
    (by norm_num : (⌊(20:ℚ) / (100 / 6)⌋ : ℤ) = 1), show Int.toNat 1 = 1 from rfl]
  norm_num
  decide

/-- Completing the cursor in a simulated-shape vector yields the done shape. -/
theorem updateStepIdx_simShape_completed (idx : ℕ) (b : Bool) (h : idx ≤ 5) :
    updateStepIdx (simShape idx b) idx .completed = simShape idx true := by
  interval_cases idx <;> cases b <;> rfl

/-- Activating the next step after completing the cursor advances the shape. -/
theorem updateStepIdx_simShape_next (idx : ℕ) (h : idx < 5) :
    updateStepIdx (simShape idx true) (idx + 1) .active =
      simShape (idx + 1) false := by
  interval_cases idx <;> rfl

/-- A simulated-shape vector has at most one Active stage. -/
theorem countActive_simShape (idx : ℕ) (b : Bool) (h : idx ≤ 5) :
    countActive (simShape idx b) ≤ 1 := by
  interval_cases idx <;> cases b <;> decide

/-- The bar-writing part of a tick keeps the simulated shape. -/
theorem simInv_simProgressPart (now : ℚ) (s : AppState) (h : SimInv s) :
    SimInv (simProgressPart now s) := by
  obtain ⟨hle, b, hcls⟩ := h
  exact ⟨hle, b, hcls⟩

/-- The transition part of a tick keeps the simulated shape. -/
theorem simInv_simTransitionPart (now elapsed : ℚ) (s : AppState) (h : SimInv s) :
    SimInv (simTransitionPart now elapsed s) := by
  obtain ⟨hle, b, hcls⟩ := h
  unfold simTransitionPart
  split_ifs with hc
  · obtain ⟨-, hlt⟩ := hc
    refine ⟨?_, false, ?_⟩
    · dsimp only
      omega
    show updateStepIdx (updateStepIdx s.cls s.sim.currentStepIndex .completed)
        (s.sim.currentStepIndex + 1) .active = simShape (s.sim.currentStepIndex + 1) false
    rw [hcls, updateStepIdx_simShape_completed _ _ hle,
      updateStepIdx_simShape_next _ hlt]
  · exact ⟨hle, b, hcls⟩

/-- The completion part of a tick keeps the simulated shape. -/
theorem simInv_simFinalPart (elapsed : ℚ) (s : AppState) (h : SimInv s) :
    SimInv (simFinalPart elapsed s) := by
  obtain ⟨hle, b, hcls⟩ := h
  unfold simFinalPart
  split_ifs with hc
  · refine ⟨hle, true, ?_⟩
    show updateStepIdx s.cls s.sim.currentStepIndex .completed =
      simShape s.sim.currentStepIndex true
    rw [hcls, updateStepIdx_simShape_completed _ _ hle]
  · exact ⟨hle, b, hcls⟩

/-- A full simulated tick keeps the simulated shape. -/
theorem simInv_runSimulation (now : ℚ) (s : AppState) (h : SimInv s) :
    SimInv (runSimulation now s) :=
  simInv_simFinalPart _ _ (simInv_simTransitionPart _ _ _ (simInv_simProgressPart now s h))

/-- The state installed by `startProgressPolling` has the simulated shape. -/
theorem simInv_initApp (t0 : ℚ) : SimInv (initApp t0) := by
  unfold initApp
  exact simInv_runSimulation _ _ ⟨Nat.zero_le 5, false, rfl⟩

/-- Any sequence of simulated ticks keeps the simulated shape. -/
theorem simInv_applySimTicks (ts : List ℚ) (s : AppState) (h : SimInv s) :
    SimInv (applyEvents s (ts.map Event.simTick)) := by
  induction ts generalizing s with
  | nil => exact h
  | cons t ts ih =>
    refine ih _ ?_
    show SimInv (applyEvent s (.simTick t))
    simp only [applyEvent]
    split
    · exact simInv_runSimulation t s h
    · exact h

/-- Claim C8, amended: snapshots produced by the simulated track alone always
have at most one Active stage (for every tick-time sequence); interleaving
remote poll responses can break this, as the counterexample shows. -/
theorem c8_amended_single_active (t0 : ℚ) (ts : List ℚ) :
    countActive (applyEvents (initApp t0) (ts.map Event.simTick)).cls ≤ 1 := by
  obtain ⟨hle, b, hcls⟩ := simInv_applySimTicks ts _ (simInv_initApp t0)
  rw [hcls]
  exact countActive_simShape _ b hle

/-- Removing a pending timer accounts for exactly its weight. -/
theorem weightSum_removeFirst (w : TKind → ℕ) (id : ℕ) :
    ∀ {l rest : List TEntry} {k : TKind}, removeFirst id l = some (k, rest) →
      weightSum w l = w k + weightSum w rest := by
  intro l
  induction l with
  | nil => intro rest k h; simp [removeFirst] at h
  | cons e l ih =>
    intro rest k h
    rw [removeFirst] at h
    split_ifs at h with hid
    · simp only [Option.some.injEq, Prod.mk.injEq] at h
      obtain ⟨hk, hrest⟩ := h
      subst hk
      subst hrest
      rfl
    · cases hrec : removeFirst id l with
      | none => rw [hrec] at h; simp at h
      | some kl =>
        obtain ⟨k0, l0⟩ := kl
        rw [hrec] at h
        simp only [Option.some.injEq, Prod.mk.injEq] at h
        obtain ⟨hk, hrest⟩ := h
        subst hk
        subst hrest
        simp only [weightSum]
        rw [ih hrec]
        omega

/-- Cancelling a timer never increases a weight sum. -/
theorem weightSum_cancelId_le (w : TKind → ℕ) (id : ℕ) (l : List TEntry) :
    weightSum w (cancelId id l) ≤ weightSum w l := by
  unfold cancelId
  cases h : removeFirst id l with
  | none => exact le_refl _
  | some kr =>
    obtain ⟨k, rest⟩ := kr
    dsimp only
    rw [weightSum_removeFirst w id h]
    omega

/-- The effect cleanup never increases a weight sum. -/
theorem weightSum_cleanup_le (w : TKind → ℕ) (st : MState) :
    weightSum w (cleanup st).timers ≤ weightSum w st.timers := by
  unfold cleanup
  dsimp only
  cases st.stepVar with
  | none =>
    cases st.progressVar with
    | none => exact le_refl _
    | some id => exact weightSum_cancelId_le w id st.timers
  | some id =>
    cases st.progressVar with
    | none => exact weightSum_cancelId_le w id st.timers
    | some id2 =>
      exact le_trans (weightSum_cancelId_le w id _) (weightSum_cancelId_le w id2 st.timers)

/-- Firing any timer preserves the pipeline invariant. -/
theorem minv_fire (id : ℕ) (st : MState) (h : MInv st) : MInv (fire id st) := by
  obtain ⟨h1, h2⟩ := h
  simp only [chainComp, compM] at h1 h2
  unfold MInv chainComp compM
  unfold fire
  cases hrem : removeFirst id st.timers with
  | none => exact ⟨h1, h2⟩
  | some kr =>
    obtain ⟨k, rest⟩ := kr
    have hc := weightSum_removeFirst kindWeight id hrem
    have hcc := weightSum_removeFirst compWeight id hrem
    cases k with
    | progressT i cur =>
      simp only [kindWeight, compWeight] at hc hcc
      dsimp only
      split_ifs with ht
      · refine ⟨by dsimp only; omega, ?_⟩
        dsimp only
        intro hx
        exact h2 (by omega)
      · refine ⟨?_, ?_⟩
        · dsimp only
          simp only [weightSum, kindWeight]
          omega
        · dsimp only
          simp only [weightSum, compWeight]
          intro hx
          exact h2 (by omega)
    | stepT i =>
      simp only [kindWeight, compWeight] at hc hcc
      refine ⟨?_, ?_⟩
      · show weightSum kindWeight (⟨st.nextId, .advanceT (i + 1)⟩ :: rest) +
          st.onCompleteCount ≤ 1
        simp only [weightSum, kindWeight]
        omega
      · show 1 ≤ weightSum compWeight (⟨st.nextId, .advanceT (i + 1)⟩ :: rest) +
          st.onCompleteCount → _
        simp only [weightSum, compWeight]
        intro hx
        exact h2 (by omega)
    | advanceT i =>
      simp only [kindWeight, compWeight] at hc hcc
      dsimp only
      unfold startStep
      split_ifs with h6
      · refine ⟨?_, fun _ => rfl⟩
        show weightSum kindWeight (⟨st.nextId, .completeT⟩ :: rest) +
          st.onCompleteCount ≤ 1
        simp only [weightSum, kindWeight]
        omega
      · refine ⟨?_, ?_⟩
        · show weightSum kindWeight
            (⟨st.nextId + 1, .stepT i⟩ ::
              ⟨st.nextId, .progressT i ((i : ℚ) / 6 * 100)⟩ :: rest) +
            st.onCompleteCount ≤ 1
          simp only [weightSum, kindWeight]
          omega
        · show 1 ≤ weightSum compWeight
            (⟨st.nextId + 1, .stepT i⟩ ::
              ⟨st.nextId, .progressT i ((i : ℚ) / 6 * 100)⟩ :: rest) +
            st.onCompleteCount → _
          simp only [weightSum, compWeight]
          intro hx
          exact h2 (by omega)
    | completeT =>
      simp only [kindWeight, compWeight] at hc hcc
      refine ⟨?_, ?_⟩
      · dsimp only
        omega
      · intro hx
        exact h2 (by omega)

/-- Running the effect cleanup preserves the pipeline invariant. -/
theorem minv_cleanup (st : MState) (h : MInv st) : MInv (cleanup st) := by
  obtain ⟨h1, h2⟩ := h
  simp only [chainComp, compM] at h1 h2
  have ha := weightSum_cleanup_le kindWeight st
  have hb := weightSum_cleanup_le compWeight st
  have hoc : (cleanup st).onCompleteCount = st.onCompleteCount := rfl
  have hflag : (cleanup st).completedFlag = st.completedFlag := rfl
  refine ⟨?_, ?_⟩
  · simp only [chainComp]
    rw [hoc]
    omega
  · simp only [compM]
    rw [hoc, hflag]
    intro hx
    exact h2 (by omega)

/-- Every scheduler run preserves the pipeline invariant. -/
theorem minv_applyMOps (ops : List MOp) (st : MState) (h : MInv st) :
    MInv (applyMOps st ops) := by
  induction ops generalizing st with
  | nil => exact h
  | cons op ops ih =>
    refine ih _ ?_
    cases op with
    | fireOp id => exact minv_fire id st h
    | cleanupOp => exact minv_cleanup st h

/-- The mounted component satisfies the pipeline invariant. -/
theorem minv_mounted : MInv mounted := by
  constructor
  · decide
  · decide

/-- Claim C3, amended: for every interleaving of timer fires and cleanups of
one mounted `ProcessingPipeline` run, `onComplete` is invoked at most once,
and only after the status has become Completed; but, as the counterexample
shows, that Completed outcome is produced by the local simulation itself
finishing — the component has no remote source at all. -/
theorem c3_amended_once (ops : List MOp) :
    (applyMOps mounted ops).onCompleteCount ≤ 1 ∧
    ((applyMOps mounted ops).onCompleteCount = 1 →
      (applyMOps mounted ops).completedFlag = true) := by
  obtain ⟨h1, h2⟩ := minv_applyMOps ops mounted minv_mounted
  simp only [chainComp, compM] at h1 h2
  constructor
  · omega
  · intro hx
    exact h2 (by omega)

/-- Witness for C3's amended theorem at the concrete full run of the
pipeline's timer chain. -/
theorem c3_amended_once_witness :
    (applyMOps mounted
      ([2, 3, 5, 6, 8, 9, 11, 12, 14, 15, 17, 18, 19].map MOp.fireOp)).completedFlag =
      true :=
  (c3_amended_once ([2, 3, 5, 6, 8, 9, 11, 12, 14, 15, 17, 18, 19].map MOp.fireOp)).2
    (by decide)

/-- Claim C3, counterexample: the Completed outcome and the `onComplete` call
are produced by the local simulation finishing on its own.  The model of
`ProcessingPipeline` (part_001) contains only the component's own timers — no
remote source exists — and firing its step/advance/completion chain to the end
sets the Completed status, marks every step completed and invokes
`onComplete` exactly once. -/
theorem c3_counterexample :
    let st := applyMOps mounted
      ([2, 3, 5, 6, 8, 9, 11, 12, 14, 15, 17, 18, 19].map MOp.fireOp)
    st.completedFlag = true ∧ st.onCompleteCount = 1 ∧
      st.stepStatuses = List.replicate 6 PStatus.completed := by decide

/-- Claim C9: the effect cleanup of `ProcessingPipeline` (part_001 lines
133-137) clears only the handles stored in `progressTimer` and `stepTimer`.
When the component is disposed during the 200ms window after a step's
completion timeout has fired, the untracked step-advance timeout is still
pending after cleanup; firing it afterwards mutates the step statuses and
schedules fresh timers that no cleanup will ever clear. -/
theorem c9_leak :
    (cleanup (fire 2 mounted)).timers = [⟨3, .advanceT 1⟩] ∧
    ¬ (cleanup (fire 2 mounted)).timers = [] ∧
    (fire 3 (cleanup (fire 2 mounted))).stepStatuses.get? 1 = some .active ∧
    (cleanup (fire 2 mounted)).stepStatuses.get? 1 = some .pending ∧
    ¬ (fire 3 (cleanup (fire 2 mounted))).timers = [] := by decide

theorem filter_clearTimer (p : HTimer → Bool) (id : ℕ) (l : List HTimer) :
    (clearTimer id l).filter p = clearTimer id (l.filter p) := by
  unfold clearTimer
  rw [List.filter_filter, List.filter_filter]
  congr 1
  funext t
  exact Bool.and_comm _ _

theorem clearTimer_self_singleton (id : ℕ) (tg : TTag) :
    clearTimer id [⟨id, tg⟩] = [] := by
  simp [clearTimer]

theorem not_mem_clearTimer (id : ℕ) (l : List HTimer) (t : HTimer)
    (hid : t.id = id) : t ∉ clearTimer id l := by
  intro hmem
  have h2 := (List.mem_filter.mp hmem).2
  simp [hid] at h2

theorem mem_of_mem_clearTimer (id : ℕ) (l : List HTimer) (t : HTimer)
    (ht : t ∈ clearTimer id l) : t ∈ l :=
  List.mem_of_mem_filter ht

theorem mem_simTimers (h : Host) (t : HTimer) :
    t ∈ simTimers h ↔ t ∈ h.live ∧ t.tag = .sim := by
  unfold simTimers
  rw [List.mem_filter]
  simp

theorem mem_pollTimers (h : Host) (t : HTimer) :
    t ∈ pollTimers h ↔ t ∈ h.live ∧ t.tag = .poll := by
  unfold pollTimers
  rw [List.mem_filter]
  simp

theorem mem_sim_or_poll (h : Host) (t : HTimer) (ht : t ∈ h.live) :
    t ∈ simTimers h ∨ t ∈ pollTimers h := by
  cases htag : t.tag with
  | sim => exact Or.inl ((mem_simTimers h t).mpr ⟨ht, htag⟩)
  | poll => exact Or.inr ((mem_pollTimers h t).mpr ⟨ht, htag⟩)
theorem clearTimer_keep_singleton (i j : ℕ) (tg : TTag) (hj : ¬ i = j) :
    clearTimer j [⟨i, tg⟩] = [⟨i, tg⟩] := by
  simp [clearTimer, hj]

theorem clearTimer_shape_one (i : ℕ) (tg : TTag) (l : List HTimer)
    (hl : l = [] ∨ l = [⟨i, tg⟩]) : clearTimer i l = [] := by
  rcases hl with h | h <;> subst h
  · rfl
  · exact clearTimer_self_singleton i tg

theorem clearTimer_shape_two (i j : ℕ) (tg : TTag) (l : List HTimer)
    (hl : l = [] ∨ l = [⟨i, tg⟩]) : clearTimer i (clearTimer j l) = [] := by
  rcases hl with h | h <;> subst h
  · rfl
  · by_cases hj : i = j
    · subst hj
      rw [clearTimer_self_singleton]
      rfl
    · rw [clearTimer_keep_singleton i j tg hj, clearTimer_self_singleton]

theorem clearTimer_shape_keep (i j : ℕ) (tg : TTag) (l : List HTimer)
    (hl : l = [] ∨ l = [⟨i, tg⟩]) :
    clearTimer j l = [] ∨ clearTimer j l = [⟨i, tg⟩] := by
  rcases hl with h | h <;> subst h
  · exact Or.inl rfl
  · by_cases hj : i = j
    · subst hj
      exact Or.inl (clearTimer_self_singleton i tg)
    · exact Or.inr (clearTimer_keep_singleton i j tg hj)
theorem hostInv_start (h : Host) (hi : HostInv h) :
    HostInv (startPollingTimers h) ∧
    simTimers (startPollingTimers h) = [⟨h.nextId, .sim⟩] ∧
    pollTimers (startPollingTimers h) = [⟨h.nextId + 1, .poll⟩] ∧
    ∀ t ∈ h.live, ¬ t ∈ (startPollingTimers h).live := by
  obtain ⟨hfresh, hsim, hpoll⟩ := hi
  suffices hS : ∃ lc : List HTimer,
      startPollingTimers h =
        { live := ⟨h.nextId + 1, .poll⟩ :: ⟨h.nextId, .sim⟩ :: lc,
          progressIntervalVar := some (h.nextId + 1),
          simulationIntervalVar := some h.nextId,
          nextId := h.nextId + 2 } ∧
      (∀ t ∈ lc, t ∈ h.live) ∧
      lc.filter (fun t => t.tag == TTag.sim) = [] ∧
      lc.filter (fun t => t.tag == TTag.poll) = [] ∧
      (∀ t ∈ h.live, ¬ t ∈ lc) by
    obtain ⟨lc, heq, hsub, hsimlc, hpolllc, hdisj⟩ := hS
    have hsim' : simTimers (startPollingTimers h) = [⟨h.nextId, .sim⟩] := by
      rw [heq]
      unfold simTimers
      simp only [List.filter_cons]
      rw [hsimlc]
      rfl
    have hpoll' : pollTimers (startPollingTimers h) = [⟨h.nextId + 1, .poll⟩] := by
      rw [heq]
      unfold pollTimers
      simp only [List.filter_cons]
      rw [hpolllc]
      rfl
    refine ⟨⟨?_, ?_, ?_⟩, hsim', hpoll', ?_⟩
    · rw [heq]
      intro t ht
      rcases List.mem_cons.mp ht with h1 | ht
      · subst h1; dsimp only; omega
      rcases List.mem_cons.mp ht with h1 | ht
      · subst h1; dsimp only; omega
      · have := hfresh t (hsub t ht)
        dsimp only
        omega
    · rw [heq] at hsim' ⊢
      dsimp only
      exact ⟨by omega, Or.inr hsim'⟩
    · rw [heq] at hpoll' ⊢
      dsimp only
      exact ⟨by omega, Or.inr hpoll'⟩
    · intro t ht hmem
      rw [heq] at hmem
      have hid := hfresh t ht
      rcases List.mem_cons.mp hmem with h1 | hmem
      · rw [h1] at hid; dsimp only at hid; omega
      rcases List.mem_cons.mp hmem with h1 | hmem
      · rw [h1] at hid; dsimp only at hid; omega
      · exact hdisj t ht hmem
  cases hpv : h.progressIntervalVar with
  | none =>
    rw [hpv] at hpoll
    cases hsv : h.simulationIntervalVar with
    | none =>
      rw [hsv] at hsim
      have hnil : h.live = [] := by
        cases hl : h.live with
        | nil => rfl
        | cons e l =>
          exfalso
          have hm : e ∈ h.live := by rw [hl]; exact List.mem_cons_self e l
          rcases mem_sim_or_poll h e hm with hx | hx
          · rw [hsim] at hx; exact List.not_mem_nil e hx
          · rw [hpoll] at hx; exact List.not_mem_nil e hx
      refine ⟨h.live, ?_, fun t ht => ht, ?_, ?_, ?_⟩
      · unfold startPollingTimers
        rw [hpv]
        dsimp only
        rw [hsv]
      · exact hsim
      · exact hpoll
      · intro t ht
        rw [hnil] at ht
        exact absurd ht (List.not_mem_nil t)
    | some i =>
      rw [hsv] at hsim
      obtain ⟨hilt, hishape⟩ := hsim
      refine ⟨clearTimer i h.live, ?_, ?_, ?_, ?_, ?_⟩
      · unfold startPollingTimers
        rw [hpv]
        dsimp only
        rw [hsv]
      · exact fun t ht => mem_of_mem_clearTimer i h.live t ht
      · show (clearTimer i h.live).filter _ = []
        rw [filter_clearTimer]
        exact clearTimer_shape_one i .sim (simTimers h) hishape
      · show (clearTimer i h.live).filter _ = []
        rw [filter_clearTimer]
        rw [show h.live.filter (fun t => t.tag == TTag.poll) = pollTimers h from rfl, hpoll]
        rfl
      · intro t ht hmem
        rcases mem_sim_or_poll h t ht with hx | hx
        · rcases hishape with hsh | hsh
          · rw [hsh] at hx; exact List.not_mem_nil t hx
          · rw [hsh] at hx
            have : t = ⟨i, .sim⟩ := List.mem_singleton.mp hx
            exact not_mem_clearTimer i h.live t (by rw [this]) hmem
        · rw [hpoll] at hx
          exact List.not_mem_nil t hx
  | some j =>
    rw [hpv] at hpoll
    obtain ⟨hjlt, hjshape⟩ := hpoll
    cases hsv : h.simulationIntervalVar with
    | none =>
      rw [hsv] at hsim
      refine ⟨clearTimer j h.live, ?_, ?_, ?_, ?_, ?_⟩
      · unfold startPollingTimers
        rw [hpv]
        dsimp only
        rw [hsv]
      · exact fun t ht => mem_of_mem_clearTimer j h.live t ht
      · show (clearTimer j h.live).filter _ = []
        rw [filter_clearTimer]
        rw [show h.live.filter (fun t => t.tag == TTag.sim) = simTimers h from rfl, hsim]
        rfl
      · show (clearTimer j h.live).filter _ = []
        rw [filter_clearTimer]
        exact clearTimer_shape_one j .poll (pollTimers h) hjshape
      · intro t ht hmem
        rcases mem_sim_or_poll h t ht with hx | hx
        · rw [hsim] at hx
          exact List.not_mem_nil t hx
        · rcases hjshape with hsh | hsh
          · rw [hsh] at hx; exact List.not_mem_nil t hx
          · rw [hsh] at hx
            have : t = ⟨j, .poll⟩ := List.mem_singleton.mp hx
            exact not_mem_clearTimer j h.live t (by rw [this]) hmem
    | some i =>
      rw [hsv] at hsim
      obtain ⟨hilt, hishape⟩ := hsim
      refine ⟨clearTimer i (clearTimer j h.live), ?_, ?_, ?_, ?_, ?_⟩
      · unfold startPollingTimers
        rw [hpv]
        dsimp only
        rw [hsv]
      · exact fun t ht =>
          mem_of_mem_clearTimer j h.live t (mem_of_mem_clearTimer i _ t ht)
      · show (clearTimer i (clearTimer j h.live)).filter _ = []
        rw [filter_clearTimer, filter_clearTimer]
        exact clearTimer_shape_two i j .sim (simTimers h) hishape
      · show (clearTimer i (clearTimer j h.live)).filter _ = []
        rw [filter_clearTimer, filter_clearTimer]
        show clearTimer i (clearTimer j (pollTimers h)) = []
        rw [clearTimer_shape_one j .poll (pollTimers h) hjshape]
        rfl
      · intro t ht hmem
        rcases mem_sim_or_poll h t ht with hx | hx
        · rcases hishape with hsh | hsh
          · rw [hsh] at hx; exact List.not_mem_nil t hx
          · rw [hsh] at hx
            have : t = ⟨i, .sim⟩ := List.mem_singleton.mp hx
            exact not_mem_clearTimer i _ t (by rw [this]) hmem
        · rcases hjshape with hsh | hsh
          · rw [hsh] at hx; exact List.not_mem_nil t hx
          · rw [hsh] at hx
            have ht2 : t = ⟨j, .poll⟩ := List.mem_singleton.mp hx
            exact not_mem_clearTimer j h.live t (by rw [ht2])
              (mem_of_mem_clearTimer i _ t hmem)
theorem hostInv_clearSim (h : Host) (hi : HostInv h) : HostInv (clearSimTimer h) := by
  obtain ⟨hfresh, hsim, hpoll⟩ := hi
  unfold clearSimTimer
  cases hsv : h.simulationIntervalVar with
  | none => exact ⟨hfresh, hsim, hpoll⟩
  | some i =>
    rw [hsv] at hsim
    obtain ⟨hilt, hishape⟩ := hsim
    refine ⟨?_, ?_, ?_⟩
    · intro t ht
      exact hfresh t (mem_of_mem_clearTimer i h.live t ht)
    · simp only [simTimers]
      rw [filter_clearTimer]
      exact clearTimer_shape_one i .sim (simTimers h) hishape
    · dsimp only
      cases hpv : h.progressIntervalVar with
      | none =>
        rw [hpv] at hpoll
        simp only [pollTimers]
        rw [filter_clearTimer]
        show clearTimer i (pollTimers h) = []
        rw [hpoll]
        rfl
      | some j =>
        rw [hpv] at hpoll
        obtain ⟨hjlt, hjshape⟩ := hpoll
        refine ⟨hjlt, ?_⟩
        simp only [pollTimers]
        rw [filter_clearTimer]
        exact clearTimer_shape_keep j i .poll (pollTimers h) hjshape

theorem hostInv_clearPoll (h : Host) (hi : HostInv h) : HostInv (clearPollTimer h) := by
  obtain ⟨hfresh, hsim, hpoll⟩ := hi
  unfold clearPollTimer
  cases hpv : h.progressIntervalVar with
  | none => exact ⟨hfresh, hsim, hpoll⟩
  | some j =>
    rw [hpv] at hpoll
    obtain ⟨hjlt, hjshape⟩ := hpoll
    refine ⟨?_, ?_, ?_⟩
    · intro t ht
      exact hfresh t (mem_of_mem_clearTimer j h.live t ht)
    · dsimp only
      cases hsv : h.simulationIntervalVar with
      | none =>
        rw [hsv] at hsim
        simp only [simTimers]
        rw [filter_clearTimer]
        show clearTimer j (simTimers h) = []
        rw [hsim]
        rfl
      | some i =>
        rw [hsv] at hsim
        obtain ⟨hilt, hishape⟩ := hsim
        refine ⟨hilt, ?_⟩
        simp only [simTimers]
        rw [filter_clearTimer]
        exact clearTimer_shape_keep i j .sim (simTimers h) hishape
    · simp only [pollTimers]
      rw [filter_clearTimer]
      exact clearTimer_shape_one j .poll (pollTimers h) hjshape

theorem hostInv_init : HostInv initHost :=
  ⟨fun t ht => absurd ht (List.not_mem_nil t), rfl, rfl⟩

theorem hostInv_applyHostOps (ops : List HostOp) (h : Host) (hi : HostInv h) :
    HostInv (applyHostOps h ops) := by
  induction ops generalizing h with
  | nil => exact hi
  | cons op ops ih =>
    refine ih _ ?_
    cases op with
    | start => exact (hostInv_start h hi).1
    | clearSim => exact hostInv_clearSim h hi
    | clearPoll => exact hostInv_clearPoll h hi

theorem hostInv_counts (h : Host) (hi : HostInv h) :
    (simTimers h).length ≤ 1 ∧ (pollTimers h).length ≤ 1 := by
  obtain ⟨-, hsim, hpoll⟩ := hi
  constructor
  · cases hsv : h.simulationIntervalVar with
    | none =>
      rw [hsv] at hsim
      rw [hsim]
      exact Nat.zero_le 1
    | some i =>
      rw [hsv] at hsim
      rcases hsim.2 with hs | hs <;> rw [hs] <;> simp
  · cases hpv : h.progressIntervalVar with
    | none =>
      rw [hpv] at hpoll
      rw [hpoll]
      exact Nat.zero_le 1
    | some j =>
      rw [hpv] at hpoll
      rcases hpoll.2 with hs | hs <;> rw [hs] <;> simp

/-- Claim C10, confirmed: after any sequence of host operations from page
load, at most one simulation interval and at most one polling interval are
live; a further `startProgressPolling` call first cancels whatever the two
module-level handles hold and then schedules exactly one fresh interval of
each kind, and no interval that was live before the call survives it — a
rapid re-submission cannot leave a timer of the previous run firing. -/
theorem c10_unique_timers (ops : List HostOp) :
    (simTimers (applyHostOps initHost ops)).length ≤ 1 ∧
    (pollTimers (applyHostOps initHost ops)).length ≤ 1 ∧
    (simTimers (startPollingTimers (applyHostOps initHost ops))).length = 1 ∧
    (pollTimers (startPollingTimers (applyHostOps initHost ops))).length = 1 ∧
    ∀ t ∈ (applyHostOps initHost ops).live,
      ¬ t ∈ (startPollingTimers (applyHostOps initHost ops)).live := by
  have hi := hostInv_applyHostOps ops initHost hostInv_init
  obtain ⟨hin, hsim, hpoll, hdisj⟩ := hostInv_start _ hi
  obtain ⟨hc1, hc2⟩ := hostInv_counts _ hi
  exact ⟨hc1, hc2, by rw [hsim]; rfl, by rw [hpoll]; rfl, hdisj⟩

/-- Witness for C10 at a concrete input: after one `start`, the first run's
simulation interval (handle 1) is live, and it is gone after a second
`start`. -/
theorem c10_unique_timers_witness :
    ¬ (⟨1, .sim⟩ : HTimer) ∈
      (startPollingTimers (applyHostOps initHost [.start])).live :=
  (c10_unique_timers [.start]).2.2.2.2 ⟨1, .sim⟩ (by decide)

end DataLabeling
